import Mathlib

/-!
Formal model of the aimdoc CLI's job-lifecycle synchronization and
result-materialization subsystem.

All definitions below are shallow embeddings of the TypeScript sources:
  * `cli/src/types.ts`           — data model (statuses, phases, progress, updates)
  * `cli/src/api.ts`             — `connectToJobWebSocket` message framing
  * the scrape command           — `waitForCompletionWithWebSocket` update handler
                                   and `waitForCompletionFallback` polling loop
  * the api-connection middleware — `ensureApiConnection` health-check retry
  * `cli/src/commands/download.ts` — download orchestrator and `generateReadmeIndex`
  * `cli/src/utils.ts`           — `sanitizeFilename`

Side effects on the terminal (spinners, progress bars) are modelled as explicit
state: each created indicator carries a fresh numeric id so that "the indicator
was stopped and recreated" is observable as a change of id / of the id counter.
Filesystem contents are modelled as `String → Option String` (path to bytes);
directory creation (`fs.ensureDir`) has no effect on that map and is not
modelled.  Machine integers do not overflow in any of the modelled code paths,
so numbers are `Nat`.
-/

/-- Job status enum from `cli/src/types.ts` (`JobStatus`). -/
inductive JobStatus where
  | pending
  | running
  | completed
  | failed
deriving DecidableEq, Repr

/-- Job phase enum (`JobPhase`), the remote engine's activity within a running
job.  The declaration file is not part of the sources, but all four values are
fixed by their uses in the scrape command (`JobPhase.DISCOVERING`, `SCRAPING`,
`CONVERTING`, `DOWNLOADING`). -/
inductive JobPhase where
  | discovering
  | scraping
  | converting
  | downloading
deriving DecidableEq, Repr

/-- The ordinal of a phase in the fixed forward order
discovering → scraping → converting → downloading. -/
def JobPhase.ord : JobPhase → Nat
  | .discovering => 0
  | .scraping => 1
  | .converting => 2
  | .downloading => 3

/-- Progress object (`progress` field): three optional counters. -/
structure Progress where
  pages_found : Option Nat := none
  pages_scraped : Option Nat := none
  files_created : Option Nat := none
deriving DecidableEq, Repr

/-- Result summary object (`result_summary` field). -/
structure ResultSummary where
  files_created : Option Nat := none
  pages_discovered : Option Nat := none
  pages_failed : Option Nat := none
  build_size : Option Nat := none
  build_path : Option String := none
deriving DecidableEq, Repr

/-- Scrape request from `cli/src/types.ts`. -/
structure ScrapeRequest where
  name : String
  url : String
deriving DecidableEq, Repr

/-- Discriminator of a WebSocket frame (`type` field of `WebSocketJobUpdate`). -/
inductive UpdateType where
  | statusUpdate
  | pong
deriving DecidableEq, Repr

/-- A parsed WebSocket message (`WebSocketJobUpdate` in `cli/src/types.ts`). -/
structure WebSocketJobUpdate where
  type : UpdateType
  status : Option JobStatus := none
  message : Option String := none
  phase : Option JobPhase := none
  progress : Option Progress := none
  result_summary : Option ResultSummary := none
  error : Option String := none
deriving DecidableEq, Repr

/-- Job status response (`JobStatusResponse` in `cli/src/types.ts`). -/
structure JobStatusResponse where
  job_id : String := ""
  status : JobStatus
  progress : Option Progress := none
  error_message : Option String := none
  result_summary : Option ResultSummary := none
  request : Option ScrapeRequest := none
deriving DecidableEq, Repr

/-- State of a `cli-progress` SingleBar: its identity plus the values the
scrape command feeds it (`start(pages_found, pages_scraped, {files_created})`
and `update(pages_scraped, {files_created})`). -/
structure BarState where
  id : Nat
  total : Nat
  value : Nat
  files_created : Nat
deriving DecidableEq, Repr

/-- State of an `ora` spinner: its identity plus its text. -/
structure SpinnerState where
  id : Nat
  text : String
deriving DecidableEq, Repr

/-- The mutable locals of `waitForCompletionWithWebSocket` that the update
handler closes over: `progressBar`, `currentSpinner`, `currentPhase`,
`lastProgress`, `connectionMessageHandled`.  `nextId` is the model's fresh-id
supply for created indicators. -/
structure UIState where
  progressBar : Option BarState := none
  currentSpinner : Option SpinnerState := none
  currentPhase : Option JobPhase := none
  lastProgress : Nat × Nat × Nat := (0, 0, 0)
  connectionMessageHandled : Bool := false
  nextId : Nat := 0
deriving DecidableEq, Repr

/-- What the update handler does besides mutating its state: keep waiting,
hand off to the download orchestrator (`status === COMPLETED`), or exit
non-zero (`status === FAILED`). -/
inductive TermAction where
  | keepWaiting
  | download
  | exitFail
deriving DecidableEq, Repr

/-- Model of JavaScript `msg.includes('Connected to job')`. -/
def messageIncludesConnected : Option String → Bool
  | some msg => (msg.splitOn "Connected to job").length > 1
  | none => false

/-- The initial connection-message block of the update handler: it only flips
`connectionMessageHandled` (the connection spinner itself is not part of the
phase indicators). -/
def connMsg (s : UIState) (m : Option String) : UIState :=
  if messageIncludesConnected m ∧ ¬ s.connectionMessageHandled then
    { s with connectionMessageHandled := true }
  else s

/-- The `if (phase !== currentPhase)` block of the update handler: stop both
indicators, record the new phase, and start the indicator appropriate to it.
For `SCRAPING` a determinate bar of size `pages_found` is started only when
`pages_found > 0`. -/
def applyTransition (s : UIState) (phase : JobPhase) (pf ps fc : Nat) : UIState :=
  let s := { s with progressBar := none, currentSpinner := none, currentPhase := some phase }
  match phase with
  | .discovering =>
      { s with currentSpinner := some ⟨s.nextId, "Discovering sitemap and pages..."⟩,
               nextId := s.nextId + 1 }
  | .scraping =>
      if pf > 0 then
        { s with progressBar := some ⟨s.nextId, pf, ps, fc⟩, nextId := s.nextId + 1 }
      else s
  | .converting =>
      { s with currentSpinner := some ⟨s.nextId, "Converting pages to markdown..."⟩,
               nextId := s.nextId + 1 }
  | .downloading =>
      { s with currentSpinner := some ⟨s.nextId, "Preparing files for download..."⟩,
               nextId := s.nextId + 1 }

/-- The "update progress indicators" block of the update handler (the
`if (phase === SCRAPING && progressBar) ... else if ... else if ...` chain). -/
def applyProgress (s : UIState) (phase : JobPhase) (ps fc : Nat) (msg : Option String) : UIState :=
  if phase = .scraping ∧ s.progressBar.isSome then
    { s with progressBar := s.progressBar.map fun b => { b with value := ps, files_created := fc } }
  else if phase = .converting ∧ s.currentSpinner.isSome then
    { s with currentSpinner := s.currentSpinner.map fun sp =>
        { sp with text := "Converting to markdown... " ++ toString fc ++ " files created" } }
  else if s.currentSpinner.isSome ∧ msg.isSome then
    { s with currentSpinner := s.currentSpinner.map fun sp => { sp with text := msg.getD "" } }
  else s

/-- The terminal-status tail of the update handler: on `COMPLETED` stop every
indicator and hand off to the download orchestrator; on `FAILED` stop every
indicator and exit non-zero; otherwise keep waiting. -/
def applyTerminal (s : UIState) (status : Option JobStatus) : UIState × TermAction :=
  if status = some JobStatus.completed then
    ({ s with progressBar := none, currentSpinner := none }, .download)
  else if status = some JobStatus.failed then
    ({ s with progressBar := none, currentSpinner := none }, .exitFail)
  else (s, .keepWaiting)

/-- The update callback passed to `connectToJobWebSocket` by
`waitForCompletionWithWebSocket`: ignores non-`status_update` frames, derives
`phase` (defaulting to `DISCOVERING`) and the three counters (defaulting to 0),
runs the phase-transition block when the phase changed, refreshes the current
indicator, records `lastProgress`, then handles a terminal status. -/
def handleUpdate (s : UIState) (u : WebSocketJobUpdate) : UIState × TermAction :=
  if u.type = UpdateType.statusUpdate then
    let s1 := connMsg s u.message
    let phase := u.phase.getD .discovering
    let prog := u.progress.getD {}
    let pf := prog.pages_found.getD 0
    let ps := prog.pages_scraped.getD 0
    let fc := prog.files_created.getD 0
    let s2 := if some phase = s1.currentPhase then s1 else applyTransition s1 phase pf ps fc
    let s3 := applyProgress s2 phase ps fc u.message
    let s4 := { s3 with lastProgress := (ps, fc, pf) }
    applyTerminal s4 u.status
  else (s, .keepWaiting)

/-- Folding the update handler over a list of received messages. -/
def runUpdates (s : UIState) (us : List WebSocketJobUpdate) : UIState :=
  us.foldl (fun st u => (handleUpdate st u).1) s

/-! ## Connection Establisher (`ensureApiConnection`) -/

/-- Result of `ensureApiConnection`: either a verified API handle is returned,
or the process exits with a non-zero code (`process.exit(1)`). -/
inductive ConnResult where
  | connected
  | exitFail
deriving DecidableEq, Repr

/-- The back-off delay slept after failing attempt number `attempt`:
`Math.min(initialDelay * attempt, 10000)` with `initialDelay = 2000`. -/
def healthDelay (attempt : Nat) : Nat :=
  min (2000 * attempt) 10000

/-- The retry loop of `ensureApiConnection`
(`for (let attempt = 1; attempt <= maxRetries; attempt++)`, `maxRetries = 12`).
`probe i` is the outcome of the i-th health check; the loop probes attempts
`attempt, attempt+1, ...` for at most `fuel` iterations, sleeping
`healthDelay attempt` after each failed attempt with `attempt < 12`.
Returns (healthy?, number of probes made, delays slept in order). -/
def retryLoop (probe : Nat → Bool) : Nat → Nat → Bool × Nat × List Nat
  | 0, _ => (false, 0, [])
  | fuel + 1, attempt =>
      if probe attempt then (true, 1, [])
      else if attempt < 12 then
        let r := retryLoop probe fuel (attempt + 1)
        (r.1, r.2.1 + 1, healthDelay attempt :: r.2.2)
      else (false, 1, [])

/-- `ensureApiConnection`: a quick health check (probe 0) first; if it fails,
the retry loop runs attempts 1..12; if still unhealthy the process exits
non-zero and no handle is returned.  Returns (result, total probes, delays). -/
def ensureApiConnection (probe : Nat → Bool) : ConnResult × Nat × List Nat :=
  if probe 0 then (.connected, 1, [])
  else
    let r := retryLoop probe 12 1
    if r.1 then (.connected, 1 + r.2.1, r.2.2)
    else (.exitFail, 1 + r.2.1, r.2.2)

/-! ## Job Update Channel (`connectToJobWebSocket` in `cli/src/api.ts`) -/

/-- An inbound WebSocket frame: either its payload parses as a
`WebSocketJobUpdate`, or `JSON.parse` throws. -/
inductive Frame where
  | parseable (u : WebSocketJobUpdate)
  | malformed
deriving DecidableEq, Repr

/-- State of one job update channel driven by the scrape command: whether the
socket is open, the UI state the update callback mutates, and how many times
the error callback has fired. -/
structure ChanState where
  isOpen : Bool := true
  ui : UIState := {}
  errorCalls : Nat := 0
deriving DecidableEq, Repr

/-- The `ws.on('message', ...)` handler of `connectToJobWebSocket`, composed
with the scrape command's callbacks: a parse failure invokes the error
callback (`onError`) and nothing else; a parsed update is passed to
`onUpdate` (which closes the socket itself on a terminal status via
`ws?.close()`).  A closed socket delivers no callbacks. -/
def chanStep (s : ChanState) (f : Frame) : ChanState :=
  if s.isOpen then
    match f with
    | .malformed => { s with errorCalls := s.errorCalls + 1 }
    | .parseable u =>
        let r := handleUpdate s.ui u
        { s with ui := r.1, isOpen := r.2 = TermAction.keepWaiting }
  else s

/-- Delivering a sequence of frames to the channel in receipt order. -/
def chanRun (s : ChanState) (fs : List Frame) : ChanState :=
  fs.foldl chanStep s

/-! ## Polling Fallback Loop (`waitForCompletionFallback`) -/

/-- Why the polling loop stopped: terminal `completed`, terminal `failed`
(non-zero exit), or the modelled snapshot sequence ran out (the real loop
would keep polling). -/
inductive PollOutcome where
  | completed
  | failedExit
  | ranOut
deriving DecidableEq, Repr

/-- Model of `JSON.stringify` on a `progress` object, at the level of the JSON
tree: the list of present key/value pairs in field order (`JSON.stringify`
omits `undefined`-valued keys; the key order of the typed record is fixed). -/
def progressJson (p : Progress) : List (String × Nat) :=
  (match p.pages_found with | some n => [("pages_found", n)] | none => []) ++
  (match p.pages_scraped with | some n => [("pages_scraped", n)] | none => []) ++
  (match p.files_created with | some n => [("files_created", n)] | none => [])

/-- `JSON.stringify` distinguishes an absent progress object (`undefined`)
from any present one. -/
def progressJsonOpt (p : Option Progress) : Option (List (String × Nat)) :=
  p.map progressJson

/-- The polling loop of `waitForCompletionFallback`: each iteration queries a
snapshot, re-renders the spinner when
`status.status !== lastStatus || JSON.stringify(status.progress) !== JSON.stringify(lastProgress)`,
then breaks on `completed`, exits non-zero on `failed`, and otherwise sleeps
2000 ms and repeats.  `last` holds the last rendered (status, progress) pair
(`none` initially, when `lastStatus` and `lastProgress` are `null`).
Returns (per-snapshot re-render flags, sleeps in ms, outcome). -/
def waitForCompletionFallback :
    List JobStatusResponse → Option (JobStatus × Option Progress) →
    List Bool × List Nat × PollOutcome
  | [], _ => ([], [], .ranOut)
  | s :: rest, last =>
      let changed : Bool :=
        match last with
        | none => true
        | some (ls, lp) =>
            decide (¬ (s.status = ls ∧ progressJsonOpt s.progress = progressJsonOpt lp))
      let last' := if changed then some (s.status, s.progress) else last
      if s.status = JobStatus.completed then ([changed], [], .completed)
      else if s.status = JobStatus.failed then ([changed], [], .failedExit)
      else
        let r := waitForCompletionFallback rest last'
        (changed :: r.1, 2000 :: r.2.1, r.2.2)

/-- Reference loop written from the spec's words: identical, except that the
re-render test compares the snapshot with the last rendered one by structural
(deep) equality of `status` and `progress`. -/
def waitForCompletionDeepEq :
    List JobStatusResponse → Option (JobStatus × Option Progress) →
    List Bool × List Nat × PollOutcome
  | [], _ => ([], [], .ranOut)
  | s :: rest, last =>
      let changed : Bool :=
        match last with
        | none => true
        | some (ls, lp) => decide (¬ (s.status = ls ∧ s.progress = lp))
      let last' := if changed then some (s.status, s.progress) else last
      if s.status = JobStatus.completed then ([changed], [], .completed)
      else if s.status = JobStatus.failed then ([changed], [], .failedExit)
      else
        let r := waitForCompletionDeepEq rest last'
        (changed :: r.1, 2000 :: r.2.1, r.2.2)

/-! ## Download Orchestrator (`createDownloadCommand` in `commands/download.ts`) -/

/-- The local filesystem's file contents: path ↦ bytes.  Directories are not
tracked (`fs.ensureDir` only creates directories). -/
abbrev Fs := String → Option String

/-- Writing bytes to a path (`fs.writeFile`). -/
def fsWrite (fs : Fs) (p d : String) : Fs :=
  fun q => if q = p then some d else fs q

/-- Model of Node's `path.join` for the shapes used here (plain relative
segments, no `.`/`..` normalization needed). -/
def pathJoin (a b : String) : String :=
  if a = "" then b else if b = "" then a else a ++ "/" ++ b

/-- `sanitizeFilename` from `cli/src/utils.ts`:
`filename.replace(/[^a-z0-9.-]/gi, '_')` — every character outside
`[A-Za-z0-9.-]` is replaced by `_`, character by character. -/
def sanitizeFilename (filename : String) : String :=
  String.mk (filename.data.map fun c =>
    if c.isAlpha || c.isDigit || c = '.' || c = '-' then c else '_')

/-- Outcome of the download command's action. -/
inductive DlOutcome where
  | exitFail
  | noFiles
  | cancelled
  | doneAll (n : Nat)
  | donePartial (k n : Nat)
deriving DecidableEq, Repr

/-- The per-file download loop (step 5 of the command): for each manifest
entry, fetch its bytes and write them; a per-file failure (`fetch f = none`)
is caught, logged and skipped.  Returns the new filesystem and the number of
files downloaded. -/
def downloadLoop (fetch : String → Option String) (finalDir : String) :
    List String → Fs → Nat → Fs × Nat
  | [], fs, count => (fs, count)
  | f :: rest, fs, count =>
      match fetch f with
      | some d => downloadLoop fetch finalDir rest (fsWrite fs (pathJoin finalDir f) d) (count + 1)
      | none => downloadLoop fetch finalDir rest fs count

/-- The action of the `download` command.  Faithful step order:
1. fetch job status; refuse (`process.exit(1)`) unless it carries a
   `result_summary`;
2. derive `projectName` by sanitizing `status.request?.name || jobId`;
3. fetch the manifest; report and return early when it is empty;
4. ensure/validate the destination directory (`dirValid` models the
   writability probe);
5. unless `--overwrite` was passed, probe every planned path and ask for
   confirmation when any exists; declining cancels everything;
6. run the download loop, report full or partial success, and invoke the
   README index generator.
Returns (filesystem, outcome, whether the index generator was invoked). -/
def downloadCommandAction (jobId outputDir : String) (st : JobStatusResponse)
    (files : List String) (overwrite confirm dirValid : Bool)
    (fetch : String → Option String) (fs0 : Fs) : Fs × DlOutcome × Bool :=
  if st.result_summary = none then (fs0, .exitFail, false)
  else
    let projectName := sanitizeFilename ((st.request.map ScrapeRequest.name).getD jobId)
    if files.isEmpty then (fs0, .noFiles, false)
    else
      let finalDir := pathJoin outputDir projectName
      if ¬ dirValid then (fs0, .exitFail, false)
      else
        let existingCount := (files.filter fun f => (fs0 (pathJoin finalDir f)).isSome).length
        if overwrite = false ∧ 0 < existingCount ∧ confirm = false then (fs0, .cancelled, false)
        else
          let r := downloadLoop fetch finalDir files fs0 0
          let outcome := if r.2 = files.length then DlOutcome.doneAll r.2
                         else DlOutcome.donePartial r.2 files.length
          (r.1, outcome, true)

/-- The bytes the download loop leaves at path `q`: the fetched bytes of the
last manifest entry that maps to `q` and fetches successfully, if any. -/
def lastWrite (fetch : String → Option String) (dir : String) :
    List String → String → Option String
  | [], _ => none
  | f :: rest, q =>
      match lastWrite fetch dir rest q with
      | some d => some d
      | none => if q = pathJoin dir f then fetch f else none

/-! ## Index Generator (`generateReadmeIndex` in `commands/download.ts`) -/

/-- A directory entry as returned by `fs.readdir(dir, {withFileTypes: true})`,
in enumeration order. -/
inductive FsEntry where
  | file (name : String) (content : String)
  | dir (name : String) (entries : List FsEntry)

/-- Whether `suffix` ends `s` (JavaScript `s.endsWith(suffix)`), at the
character-list level. -/
def strEndsWith (s suffix : String) : Bool :=
  suffix.data.isSuffixOf s.data

/-- Splitting a character list on a separator character, as
`String.prototype.split` does for a one-character separator. -/
def splitOnChar (sep : Char) : List Char → List (List Char)
  | [] => [[]]
  | c :: cs =>
      let r := splitOnChar sep cs
      if c = sep then [] :: r
      else
        match r with
        | [] => [[c]]
        | g :: gs => (c :: g) :: gs

mutual

/-- The md files contributed by one directory entry: a matching file's own
path, or a subdirectory's recursive traversal. -/
def mdFilesOfEntry : FsEntry → String → List String
  | FsEntry.file name _, rel =>
      if strEndsWith name ".md" && name != "README.md" then [pathJoin rel name] else []
  | FsEntry.dir name sub, rel => getAllMdFiles sub (pathJoin rel name)

/-- `getAllMdFiles`: recursively collect relative paths of `.md` files, in
enumeration order, skipping any entry named `README.md`. -/
def getAllMdFiles : List FsEntry → String → List String
  | [], _ => []
  | e :: rest, rel => mdFilesOfEntry e rel ++ getAllMdFiles rest rel

end

/-- Model of Node's `path.dirname` on the relative paths produced above. -/
def dirname (p : String) : String :=
  let parts := (splitOnChar '/' p.data).map String.mk
  if parts.length ≤ 1 then "." else String.intercalate "/" parts.dropLast

/-- Model of Node's `path.basename(p, '.md')`. -/
def basenameMd (p : String) : String :=
  let base := ((splitOnChar '/' p.data).map String.mk).getLastD p
  if strEndsWith base ".md" then String.mk (base.data.take (base.data.length - 3)) else base

/-- Code-point lexicographic comparison of character lists; the model of
`String.prototype.localeCompare` used by the group sort (for the plain
ASCII directory names at hand, locale order and code-point order agree). -/
def charListLe : List Char → List Char → Bool
  | [], _ => true
  | _ :: _, [] => false
  | c :: cs, d :: ds =>
      if c.toNat < d.toNat then true
      else if d.toNat < c.toNat then false
      else charListLe cs ds

/-- `a.localeCompare(b) <= 0`, modelled as code-point order. -/
def localeLe (a b : String) : Bool :=
  charListLe a.data b.data

/-- Appending one file's base name to its directory's group, preserving the
first-encounter order of keys (JS plain-object key insertion order). -/
def groupInsert : List (String × List String) → String → String → List (String × List String)
  | [], dir, base => [(dir, [base])]
  | (d, fs) :: rest, dir, base =>
      if d = dir then (d, fs ++ [base]) :: rest
      else (d, fs) :: groupInsert rest dir base

/-- The `structure` record: md files grouped by `path.dirname`, each group's
list holding `path.basename(file, '.md')` in push order. -/
def structureOf (mdFiles : List String) : List (String × List String) :=
  mdFiles.foldl (fun st f => groupInsert st (dirname f) (basenameMd f)) []

/-- `Object.entries(structure).sort(([a],[b]) => a.localeCompare(b))`:
a stable sort by directory name.  Keys are unique, so any stable sort by a
total order gives this same list. -/
def sortedStructure (mdFiles : List String) : List (String × List String) :=
  List.insertionSort (fun a b => localeLe a.1 b.1 = true) (structureOf mdFiles)

/-- Model of `path.join(dir, file)` in the link target, where `dir` may be
`'.'` (Node normalizes `./x` to `x`). -/
def joinDot (dir f : String) : String :=
  if dir = "." then f else dir ++ "/" ++ f

/-- One group's section of the generated README: no heading for the root
group, a `### <dir>` heading otherwise, then one `- [file](./path.md)` line
per file in group order. -/
def sectionFor (dir : String) (files : List String) : String :=
  (if dir = "." then "" else "### " ++ dir ++ "\n\n") ++
  String.intercalate "\n" (files.map fun f => "- [" ++ f ++ "](./" ++ joinDot dir f ++ ".md)")

/-- The generated README body. -/
def readmeContent (mdFiles : List String) : String :=
  "# Documentation Index\n\n" ++
  String.intercalate "\n\n" ((sortedStructure mdFiles).map fun g => sectionFor g.1 g.2)

/-- Whether a `README.md` already exists at the destination root
(`fs.pathExists(readmePath)`). -/
def readmeExists : List FsEntry → Bool
  | [] => false
  | FsEntry.file name _ :: rest => name = "README.md" || readmeExists rest
  | FsEntry.dir _ _ :: rest => readmeExists rest

/-- `generateReadmeIndex` on the destination tree: a no-op when the index
already exists, a no-op when there are no md files, and otherwise writes the
generated index at the root. -/
def generateReadmeIndex (root : List FsEntry) : List FsEntry :=
  if readmeExists root then root
  else
    let mdFiles := getAllMdFiles root ""
    if mdFiles.isEmpty then root
    else root ++ [FsEntry.file "README.md" (readmeContent mdFiles)]

/-- What one run of the generator did. -/
inductive GenResult where
  | skipped
  | empty
  | wrote (content : String)
  | warned
deriving DecidableEq, Repr

/-- The generator including its `try/catch`: `enumerated` is the outcome of
the filesystem traversal, which may throw; any failure is caught and logged
as a warning (`console.warn`) instead of propagating. -/
def generateReadmeIndexRun (readmeAlreadyExists : Bool)
    (enumerated : Except String (List String)) : GenResult :=
  if readmeAlreadyExists then .skipped
  else
    match enumerated with
    | .error _ => .warned
    | .ok mdFiles => if mdFiles.isEmpty then .empty else .wrote (readmeContent mdFiles)

/-- Looking a directory key up in the grouping structure. -/
def lookupGroup : List (String × List String) → String → Option (List String)
  | [], _ => none
  | (d, fs) :: rest, k => if d = k then some fs else lookupGroup rest k

/-- Appending newly grouped entries to a possibly-absent group. -/
def combineGroup : Option (List String) → List String → Option (List String)
  | o, [] => o
  | none, l => some l
  | some g, l => some (g ++ l)

/-- The contents claim C9 ascribes to a directory's group: the base names of
exactly the enumerated md files whose `path.dirname` is that directory, in
enumeration order. -/
def groupContent (mdFiles : List String) (k : String) : Option (List String) :=
  combineGroup none ((mdFiles.filter fun f => decide (dirname f = k)).map basenameMd)

/-! ## Concrete instances used by counterexamples and witnesses -/

/-- A `status_update` announcing the scraping phase with 5 pages found. -/
def exScrapeUpdate : WebSocketJobUpdate :=
  { type := .statusUpdate, phase := some .scraping,
    progress := some { pages_found := some 5, pages_scraped := some 1 } }

/-- A `status_update` announcing the discovering phase, delivered out of
order after scraping has already been rendered. -/
def exDiscoverUpdate : WebSocketJobUpdate :=
  { type := .statusUpdate, phase := some .discovering }

/-- A rendered state mid-scraping: determinate bar with id 0 sized to 5. -/
def exScrapingState : UIState :=
  { progressBar := some ⟨0, 5, 1, 0⟩, currentPhase := some .scraping, nextId := 1 }

/-- A repeat `status_update` for the scraping phase carrying fresh counters. -/
def exSamePhaseUpdate : WebSocketJobUpdate :=
  { type := .statusUpdate, phase := some .scraping,
    progress := some { pages_found := some 5, pages_scraped := some 3, files_created := some 2 } }

/-! ## Helper lemmas about the update handler's building blocks -/

@[simp] theorem connMsg_progressBar (s : UIState) (m : Option String) :
    (connMsg s m).progressBar = s.progressBar := by
  unfold connMsg; split <;> rfl

@[simp] theorem connMsg_currentSpinner (s : UIState) (m : Option String) :
    (connMsg s m).currentSpinner = s.currentSpinner := by
  unfold connMsg; split <;> rfl

@[simp] theorem connMsg_currentPhase (s : UIState) (m : Option String) :
    (connMsg s m).currentPhase = s.currentPhase := by
  unfold connMsg; split <;> rfl

@[simp] theorem connMsg_nextId (s : UIState) (m : Option String) :
    (connMsg s m).nextId = s.nextId := by
  unfold connMsg; split <;> rfl

@[simp] theorem connMsg_lastProgress (s : UIState) (m : Option String) :
    (connMsg s m).lastProgress = s.lastProgress := by
  unfold connMsg; split <;> rfl

@[simp] theorem applyProgress_currentPhase (s : UIState) (p : JobPhase) (ps fc : Nat)
    (m : Option String) : (applyProgress s p ps fc m).currentPhase = s.currentPhase := by
  unfold applyProgress
  repeat' split
  all_goals rfl

@[simp] theorem applyProgress_nextId (s : UIState) (p : JobPhase) (ps fc : Nat)
    (m : Option String) : (applyProgress s p ps fc m).nextId = s.nextId := by
  unfold applyProgress
  repeat' split
  all_goals rfl

@[simp] theorem applyProgress_connectionMessageHandled (s : UIState) (p : JobPhase)
    (ps fc : Nat) (m : Option String) :
    (applyProgress s p ps fc m).connectionMessageHandled = s.connectionMessageHandled := by
  unfold applyProgress
  repeat' split
  all_goals rfl

theorem applyProgress_bar_idTotal (s : UIState) (p : JobPhase) (ps fc : Nat)
    (m : Option String) :
    (applyProgress s p ps fc m).progressBar.map (fun b => (b.id, b.total)) =
      s.progressBar.map (fun b => (b.id, b.total)) := by
  unfold applyProgress
  repeat' split
  all_goals cases s.progressBar <;> rfl

theorem applyProgress_spinner_id (s : UIState) (p : JobPhase) (ps fc : Nat)
    (m : Option String) :
    (applyProgress s p ps fc m).currentSpinner.map SpinnerState.id =
      s.currentSpinner.map SpinnerState.id := by
  unfold applyProgress
  repeat' split
  all_goals cases s.currentSpinner <;> rfl

theorem applyTerminal_keep (s : UIState) (st : Option JobStatus)
    (h1 : st ≠ some JobStatus.completed) (h2 : st ≠ some JobStatus.failed) :
    applyTerminal s st = (s, .keepWaiting) := by
  unfold applyTerminal
  rw [if_neg h1, if_neg h2]

@[simp] theorem applyTerminal_currentPhase (s : UIState) (st : Option JobStatus) :
    (applyTerminal s st).1.currentPhase = s.currentPhase := by
  unfold applyTerminal
  repeat' split
  all_goals rfl

@[simp] theorem applyTerminal_nextId (s : UIState) (st : Option JobStatus) :
    (applyTerminal s st).1.nextId = s.nextId := by
  unfold applyTerminal
  repeat' split
  all_goals rfl

@[simp] theorem applyTerminal_lastProgress (s : UIState) (st : Option JobStatus) :
    (applyTerminal s st).1.lastProgress = s.lastProgress := by
  unfold applyTerminal
  repeat' split
  all_goals rfl

theorem applyTerminal_download_iff (s : UIState) (st : Option JobStatus) :
    (applyTerminal s st).2 = TermAction.download ↔ st = some JobStatus.completed := by
  unfold applyTerminal
  repeat' split
  all_goals simp_all

/-- After any `status_update` event the rendered phase equals the event's
derived phase (the handler either keeps the already-equal phase or overwrites
it with the event's one; terminal handling does not touch it). -/
theorem handleUpdate_currentPhase (s : UIState) (u : WebSocketJobUpdate)
    (hty : u.type = UpdateType.statusUpdate) :
    (handleUpdate s u).1.currentPhase = some (u.phase.getD .discovering) := by
  unfold handleUpdate
  rw [if_pos hty]
  simp only [applyTerminal_currentPhase, applyProgress_currentPhase]
  split
  · next h => exact h.symm
  · unfold applyTransition
    split
    all_goals simp_all
    split
    all_goals rfl


/-- Unfolding of the update handler when the event's phase equals the
currently rendered phase: the phase-transition block is skipped. -/
theorem handleUpdate_samePhase (s : UIState) (u : WebSocketJobUpdate)
    (hty : u.type = UpdateType.statusUpdate)
    (hph : some (u.phase.getD .discovering) = s.currentPhase) :
    handleUpdate s u =
      applyTerminal
        { applyProgress (connMsg s u.message) (u.phase.getD .discovering)
            ((u.progress.getD {}).pages_scraped.getD 0)
            ((u.progress.getD {}).files_created.getD 0) u.message with
          lastProgress :=
            ((u.progress.getD {}).pages_scraped.getD 0,
             (u.progress.getD {}).files_created.getD 0,
             (u.progress.getD {}).pages_found.getD 0) }
        u.status := by
  have hcond : some (u.phase.getD .discovering) = (connMsg s u.message).currentPhase := by
    rw [connMsg_currentPhase]; exact hph
  simp only [handleUpdate]
  rw [if_pos hty, if_pos hcond]

/-- Unfolding of the update handler when the event's phase differs from the
currently rendered phase: the phase-transition block runs. -/
theorem handleUpdate_newPhase (s : UIState) (u : WebSocketJobUpdate)
    (hty : u.type = UpdateType.statusUpdate)
    (hph : some (u.phase.getD .discovering) ≠ s.currentPhase) :
    handleUpdate s u =
      applyTerminal
        { applyProgress
            (applyTransition (connMsg s u.message) (u.phase.getD .discovering)
              ((u.progress.getD {}).pages_found.getD 0)
              ((u.progress.getD {}).pages_scraped.getD 0)
              ((u.progress.getD {}).files_created.getD 0))
            (u.phase.getD .discovering)
            ((u.progress.getD {}).pages_scraped.getD 0)
            ((u.progress.getD {}).files_created.getD 0) u.message with
          lastProgress :=
            ((u.progress.getD {}).pages_scraped.getD 0,
             (u.progress.getD {}).files_created.getD 0,
             (u.progress.getD {}).pages_found.getD 0) }
        u.status := by
  have hcond : ¬ some (u.phase.getD .discovering) = (connMsg s u.message).currentPhase := by
    rw [connMsg_currentPhase]; exact hph
  simp only [handleUpdate]
  rw [if_pos hty, if_neg hcond]

/-! ## Claim C1 -/

/-- Claim C1 is false as stated: delivering a `status_update` whose phase is
out of order (discovering, ordinal 0, after scraping, ordinal 1, is already
rendered) regresses the rendered phase and stops and recreates the active
progress indicator (the bar with id 0 is stopped, a brand-new spinner with the
next fresh id 1 is created). -/
theorem C1_counterexample :
    ((handleUpdate {} exScrapeUpdate).1.currentPhase = some JobPhase.scraping) ∧
    ((handleUpdate {} exScrapeUpdate).1.progressBar.map BarState.id = some 0) ∧
    ((handleUpdate (handleUpdate {} exScrapeUpdate).1 exDiscoverUpdate).1.currentPhase =
       some JobPhase.discovering) ∧
    JobPhase.ord .discovering < JobPhase.ord .scraping ∧
    ((handleUpdate (handleUpdate {} exScrapeUpdate).1 exDiscoverUpdate).1.progressBar = none) ∧
    ((handleUpdate (handleUpdate {} exScrapeUpdate).1 exDiscoverUpdate).1.currentSpinner.map
       SpinnerState.id = some 1) ∧
    ((handleUpdate (handleUpdate {} exScrapeUpdate).1 exDiscoverUpdate).1.nextId =
       (handleUpdate {} exScrapeUpdate).1.nextId + 1) := by
  decide

/-- Claim C1 (amended): a repeated same-phase `status_update` (with a
non-terminal status) is an idempotent no-op for phase-transition logic — the
rendered phase is unchanged, no indicator is stopped or created (the id supply
and both indicators' identities are untouched) — while the progress counters
are still recorded; moreover after any `status_update` the rendered phase
equals the event's derived phase, so along event sequences whose phase
ordinals never drop below the rendered phase the rendered phase never
regresses.  (As the counterexample shows, an event with a strictly lower
phase ordinal instead regresses the display and recreates the indicator.) -/
theorem C1_amended :
    (∀ (s : UIState) (u : WebSocketJobUpdate),
        u.type = UpdateType.statusUpdate →
        some (u.phase.getD .discovering) = s.currentPhase →
        u.status ≠ some JobStatus.completed →
        u.status ≠ some JobStatus.failed →
        (handleUpdate s u).1.currentPhase = s.currentPhase ∧
        (handleUpdate s u).1.nextId = s.nextId ∧
        (handleUpdate s u).1.progressBar.map (fun b => (b.id, b.total)) =
          s.progressBar.map (fun b => (b.id, b.total)) ∧
        (handleUpdate s u).1.currentSpinner.map SpinnerState.id =
          s.currentSpinner.map SpinnerState.id ∧
        (handleUpdate s u).1.lastProgress =
          ((u.progress.getD {}).pages_scraped.getD 0,
           (u.progress.getD {}).files_created.getD 0,
           (u.progress.getD {}).pages_found.getD 0) ∧
        (handleUpdate s u).2 = TermAction.keepWaiting) ∧
    (∀ (s : UIState) (u : WebSocketJobUpdate),
        u.type = UpdateType.statusUpdate →
        (handleUpdate s u).1.currentPhase = some (u.phase.getD .discovering)) ∧
    (∀ (s : UIState) (u : WebSocketJobUpdate) (q : JobPhase),
        u.type = UpdateType.statusUpdate →
        s.currentPhase = some q →
        q.ord ≤ (u.phase.getD .discovering).ord →
        ∃ r, (handleUpdate s u).1.currentPhase = some r ∧ q.ord ≤ r.ord) := by
  refine ⟨?_, ?_, ?_⟩
  · intro s u hty hph h1 h2
    rw [handleUpdate_samePhase s u hty hph, applyTerminal_keep _ _ h1 h2]
    refine ⟨?_, ?_, ?_, ?_, rfl, rfl⟩
    · show (applyProgress (connMsg s u.message) _ _ _ _).currentPhase = s.currentPhase
      rw [applyProgress_currentPhase, connMsg_currentPhase]
    · show (applyProgress (connMsg s u.message) _ _ _ _).nextId = s.nextId
      rw [applyProgress_nextId, connMsg_nextId]
    · show (applyProgress (connMsg s u.message) _ _ _ _).progressBar.map _ = _
      rw [applyProgress_bar_idTotal, connMsg_progressBar]
    · show (applyProgress (connMsg s u.message) _ _ _ _).currentSpinner.map _ = _
      rw [applyProgress_spinner_id, connMsg_currentSpinner]
  · intro s u hty
    exact handleUpdate_currentPhase s u hty
  · intro s u q hty hq hord
    refine ⟨u.phase.getD .discovering, handleUpdate_currentPhase s u hty, hord⟩

/-- Witness for the amended claim C1 at a concrete input: a repeat scraping
update leaves the rendered phase and the bar's identity alone while recording
the new counters. -/
theorem C1_amended_witness :
    (exSamePhaseUpdate.type = UpdateType.statusUpdate ∧
     some (exSamePhaseUpdate.phase.getD .discovering) = exScrapingState.currentPhase) ∧
    ((handleUpdate exScrapingState exSamePhaseUpdate).1.currentPhase =
       exScrapingState.currentPhase ∧
     (handleUpdate exScrapingState exSamePhaseUpdate).1.nextId = exScrapingState.nextId ∧
     (handleUpdate exScrapingState exSamePhaseUpdate).1.progressBar.map (fun b => (b.id, b.total)) =
       exScrapingState.progressBar.map (fun b => (b.id, b.total)) ∧
     (handleUpdate exScrapingState exSamePhaseUpdate).1.currentSpinner.map SpinnerState.id =
       exScrapingState.currentSpinner.map SpinnerState.id ∧
     (handleUpdate exScrapingState exSamePhaseUpdate).1.lastProgress =
       ((exSamePhaseUpdate.progress.getD {}).pages_scraped.getD 0,
        (exSamePhaseUpdate.progress.getD {}).files_created.getD 0,
        (exSamePhaseUpdate.progress.getD {}).pages_found.getD 0) ∧
     (handleUpdate exScrapingState exSamePhaseUpdate).2 = TermAction.keepWaiting) :=
  ⟨⟨by decide, by decide⟩,
   C1_amended.1 exScrapingState exSamePhaseUpdate (by decide) (by decide)
     (by decide) (by decide)⟩

/-- Within the scraping phase the progress chain only refreshes the existing
bar's counters. -/
theorem applyProgress_scraping_bar (s : UIState) (ps fc : Nat) (m : Option String) :
    (applyProgress s .scraping ps fc m).progressBar =
      s.progressBar.map (fun b => { b with value := ps, files_created := fc }) := by
  rcases hb : s.progressBar with _ | b
  · unfold applyProgress
    repeat' split
    all_goals simp_all
  · unfold applyProgress
    repeat' split
    all_goals simp_all

/-- Every phase transition records the new phase. -/
@[simp] theorem applyTransition_currentPhase (s : UIState) (p : JobPhase) (pf ps fc : Nat) :
    (applyTransition s p pf ps fc).currentPhase = some p := by
  unfold applyTransition
  cases p
  all_goals first
  | rfl
  | (repeat' split
     all_goals rfl)

/-- The progress chain never creates a bar. -/
theorem applyProgress_progressBar_none (s : UIState) (p : JobPhase) (ps fc : Nat)
    (m : Option String) (h : s.progressBar = none) :
    (applyProgress s p ps fc m).progressBar = none := by
  have hb := applyProgress_bar_idTotal s p ps fc m
  rw [h] at hb
  exact Option.map_eq_none'.mp hb

/-- The progress chain never creates a spinner. -/
theorem applyProgress_spinner_none (s : UIState) (p : JobPhase) (ps fc : Nat)
    (m : Option String) (h : s.currentSpinner = none) :
    (applyProgress s p ps fc m).currentSpinner = none := by
  have hb := applyProgress_spinner_id s p ps fc m
  rw [h] at hb
  exact Option.map_eq_none'.mp hb

/-! ## Claim C2 -/

/-- Claim C2: on a non-terminal `status_update` whose phase differs from the
currently rendered phase, the current indicators are retired and the indicator
appropriate to the new phase is installed — a brand-new indeterminate spinner
(fresh id) for discovering/converting/downloading, a brand-new determinate bar
sized to `pages_found` for scraping once `pages_found` is known (positive),
and no indicator while it is still zero; on a non-terminal `status_update`
whose phase equals the rendered phase, no indicator is created (the id supply
and both indicators' identities are untouched) and only the existing bar's
counters are refreshed. -/
theorem C2_indicator_transitions :
    (∀ (s : UIState) (u : WebSocketJobUpdate),
        u.type = UpdateType.statusUpdate →
        some (u.phase.getD .discovering) ≠ s.currentPhase →
        u.status ≠ some JobStatus.completed →
        u.status ≠ some JobStatus.failed →
        (handleUpdate s u).1.currentPhase = some (u.phase.getD .discovering) ∧
        ((u.phase.getD .discovering = .discovering ∨ u.phase.getD .discovering = .converting ∨
            u.phase.getD .discovering = .downloading) →
          (handleUpdate s u).1.progressBar = none ∧
          (handleUpdate s u).1.currentSpinner.map SpinnerState.id = some s.nextId ∧
          (handleUpdate s u).1.nextId = s.nextId + 1) ∧
        (u.phase.getD .discovering = .scraping →
          0 < (u.progress.getD {}).pages_found.getD 0 →
          (handleUpdate s u).1.currentSpinner = none ∧
          (handleUpdate s u).1.progressBar.map (fun b => (b.id, b.total)) =
            some (s.nextId, (u.progress.getD {}).pages_found.getD 0) ∧
          (handleUpdate s u).1.nextId = s.nextId + 1) ∧
        (u.phase.getD .discovering = .scraping →
          (u.progress.getD {}).pages_found.getD 0 = 0 →
          (handleUpdate s u).1.progressBar = none ∧
          (handleUpdate s u).1.currentSpinner = none ∧
          (handleUpdate s u).1.nextId = s.nextId)) ∧
    (∀ (s : UIState) (u : WebSocketJobUpdate),
        u.type = UpdateType.statusUpdate →
        some (u.phase.getD .discovering) = s.currentPhase →
        u.status ≠ some JobStatus.completed →
        u.status ≠ some JobStatus.failed →
        (handleUpdate s u).1.nextId = s.nextId ∧
        (handleUpdate s u).1.progressBar.map (fun b => (b.id, b.total)) =
          s.progressBar.map (fun b => (b.id, b.total)) ∧
        (handleUpdate s u).1.currentSpinner.map SpinnerState.id =
          s.currentSpinner.map SpinnerState.id ∧
        (u.phase.getD .discovering = .scraping →
          (handleUpdate s u).1.progressBar =
            s.progressBar.map fun b =>
              { b with value := (u.progress.getD {}).pages_scraped.getD 0,
                       files_created := (u.progress.getD {}).files_created.getD 0 })) := by
  constructor
  · intro s u hty hph h1 h2
    rw [handleUpdate_newPhase s u hty hph, applyTerminal_keep _ _ h1 h2]
    rcases hp : u.phase.getD .discovering with _ | _ | _ | _
    · simp only [hp]
      refine ⟨by simp, fun _ => ?_, by simp, by simp⟩
      simp [applyTransition, applyProgress_progressBar_none, applyProgress_spinner_id,
        applyProgress_nextId]
    · simp only [hp]
      refine ⟨by simp, by simp, fun _ hpf => ?_, fun _ hpf => ?_⟩
      · simp [applyTransition, hpf, applyProgress_spinner_none, applyProgress_bar_idTotal,
          applyProgress_nextId]
      · simp [applyTransition, hpf, applyProgress_spinner_none, applyProgress_progressBar_none,
          applyProgress_nextId]
    · simp only [hp]
      refine ⟨by simp, fun _ => ?_, by simp, by simp⟩
      simp [applyTransition, applyProgress_progressBar_none, applyProgress_spinner_id,
        applyProgress_nextId]
    · simp only [hp]
      refine ⟨by simp, fun _ => ?_, by simp, by simp⟩
      simp [applyTransition, applyProgress_progressBar_none, applyProgress_spinner_id,
        applyProgress_nextId]
  · intro s u hty hph h1 h2
    rw [handleUpdate_samePhase s u hty hph, applyTerminal_keep _ _ h1 h2]
    refine ⟨?_, ?_, ?_, ?_⟩
    · show (applyProgress (connMsg s u.message) _ _ _ _).nextId = s.nextId
      rw [applyProgress_nextId, connMsg_nextId]
    · show (applyProgress (connMsg s u.message) _ _ _ _).progressBar.map _ = _
      rw [applyProgress_bar_idTotal, connMsg_progressBar]
    · show (applyProgress (connMsg s u.message) _ _ _ _).currentSpinner.map _ = _
      rw [applyProgress_spinner_id, connMsg_currentSpinner]
    · intro hps
      rw [show ((⟨(applyProgress (connMsg s u.message) (u.phase.getD .discovering)
          ((u.progress.getD {}).pages_scraped.getD 0)
          ((u.progress.getD {}).files_created.getD 0) u.message).progressBar, _, _, _, _, _⟩ :
            UIState)).progressBar =
          (applyProgress (connMsg s u.message) (u.phase.getD .discovering)
            ((u.progress.getD {}).pages_scraped.getD 0)
            ((u.progress.getD {}).files_created.getD 0) u.message).progressBar from rfl]
      rw [hps, applyProgress_scraping_bar, connMsg_progressBar]

/-- Witness for claim C2 at a concrete input: from a fresh state, a scraping
`status_update` with 5 pages found installs a determinate bar of size 5 with
the fresh id 0 and no spinner. -/
theorem C2_indicator_transitions_witness :
    (exScrapeUpdate.type = UpdateType.statusUpdate ∧
     some (exScrapeUpdate.phase.getD .discovering) ≠ (({} : UIState)).currentPhase ∧
     0 < (exScrapeUpdate.progress.getD {}).pages_found.getD 0) ∧
    ((handleUpdate {} exScrapeUpdate).1.currentPhase =
       some (exScrapeUpdate.phase.getD .discovering) ∧
     (handleUpdate {} exScrapeUpdate).1.currentSpinner = none ∧
     (handleUpdate {} exScrapeUpdate).1.progressBar.map (fun b => (b.id, b.total)) =
       some ((({} : UIState)).nextId, (exScrapeUpdate.progress.getD {}).pages_found.getD 0) ∧
     (handleUpdate {} exScrapeUpdate).1.nextId = (({} : UIState)).nextId + 1) :=
  ⟨⟨by decide, by decide, by decide⟩, by
    have h := C2_indicator_transitions.1 {} exScrapeUpdate (by decide) (by decide)
      (by decide) (by decide)
    exact ⟨h.1, (h.2.2.1 (by decide) (by decide)).1, (h.2.2.1 (by decide) (by decide)).2.1,
      (h.2.2.1 (by decide) (by decide)).2.2⟩⟩

/-! ## Claim C3 -/

/-- If every probed attempt fails, the retry loop makes exactly its budgeted
probes and sleeps the capped back-off delay after every attempt but the
last. -/
theorem retryLoop_all_fail (probe : Nat → Bool) :
    ∀ fuel attempt, attempt + fuel = 13 →
      (∀ i, attempt ≤ i → i ≤ 12 → probe i = false) →
      retryLoop probe fuel attempt =
        (false, fuel, (List.range' attempt (fuel - 1)).map healthDelay) := by
  intro fuel
  induction fuel with
  | zero => intro attempt _ _; rfl
  | succ f ih =>
      intro attempt hsum hall
      have ha12 : attempt ≤ 12 := by omega
      have hfalse : probe attempt = false := hall attempt le_rfl ha12
      unfold retryLoop
      rw [hfalse]
      simp only [Bool.false_eq_true, if_false]
      by_cases hlt : attempt < 12
      · rw [if_pos hlt]
        have hr := ih (attempt + 1) (by omega) (fun i h1 h2 => hall i (by omega) h2)
        rw [hr]
        have hn : f = (f - 1) + 1 ∨ f = 0 := by omega
        rcases hn with hn | hn
        · refine Prod.ext rfl (Prod.ext rfl ?_)
          show healthDelay attempt :: (List.range' (attempt + 1) (f - 1)).map healthDelay =
            (List.range' attempt (f + 1 - 1)).map healthDelay
          have : f + 1 - 1 = (f - 1) + 1 := by omega
          rw [this, List.range'_succ, List.map_cons]
        · subst hn
          omega
      · rw [if_neg hlt]
        have hf0 : f = 0 := by omega
        subst hf0
        rfl

/-- If attempt `N` is the first to succeed, the retry loop stops there having
made `N - attempt + 1` probes with the back-off delays of the failed
attempts. -/
theorem retryLoop_success (probe : Nat → Bool) :
    ∀ fuel attempt N, attempt + fuel = 13 → attempt ≤ N → N ≤ 12 →
      probe N = true → (∀ i, attempt ≤ i → i < N → probe i = false) →
      retryLoop probe fuel attempt =
        (true, N - attempt + 1, (List.range' attempt (N - attempt)).map healthDelay) := by
  intro fuel
  induction fuel with
  | zero => intro attempt N hsum h1 h2 _ _; omega
  | succ f ih =>
      intro attempt N hsum hle h12 hN hall
      by_cases hAN : attempt = N
      · subst hAN
        unfold retryLoop
        rw [hN]
        simp
      · have hlt : attempt < N := lt_of_le_of_ne hle hAN
        have hfalse : probe attempt = false := hall attempt le_rfl hlt
        unfold retryLoop
        rw [hfalse]
        simp only [Bool.false_eq_true, if_false]
        rw [if_pos (by omega : attempt < 12)]
        have hr := ih (attempt + 1) N (by omega) (by omega) h12 hN
          (fun i hi1 hi2 => hall i (by omega) hi2)
        rw [hr]
        refine Prod.ext rfl (Prod.ext (by simp; omega) ?_)
        show healthDelay attempt :: (List.range' (attempt + 1) (N - (attempt + 1))).map healthDelay =
          (List.range' attempt (N - attempt)).map healthDelay
        have : N - attempt = (N - (attempt + 1)) + 1 := by omega
        rw [this, List.range'_succ, List.map_cons]

/-- Claim C3: when the initial liveness probe fails, the Establisher retries
for at most 12 attempts, sleeping `min(2000 * attemptNumber, 10000)` between
consecutive attempts; if every attempt fails it exits non-zero without
returning a handle (13 probes in total, 11 capped back-off sleeps), and if
some attempt `N < 12` is the first to succeed it returns a verified handle
after `1 + N` probes and `N - 1` sleeps. -/
theorem C3_connection_establisher (probe : Nat → Bool) :
    (probe 0 = false → (∀ i, 1 ≤ i → i ≤ 12 → probe i = false) →
       ensureApiConnection probe =
         (.exitFail, 13, (List.range' 1 11).map healthDelay)) ∧
    (∀ N, probe 0 = false → 1 ≤ N → N < 12 → probe N = true →
       (∀ i, 1 ≤ i → i < N → probe i = false) →
       ensureApiConnection probe =
         (.connected, 1 + N, (List.range' 1 (N - 1)).map healthDelay)) ∧
    (ensureApiConnection probe).2.1 ≤ 13 := by
  refine ⟨?_, ?_, ?_⟩
  · intro h0 hall
    unfold ensureApiConnection
    rw [h0]
    simp only [Bool.false_eq_true, if_false]
    rw [retryLoop_all_fail probe 12 1 (by omega) hall]
    rfl
  · intro N h0 hN1 hN12 hNT hall
    unfold ensureApiConnection
    rw [h0]
    simp only [Bool.false_eq_true, if_false]
    rw [retryLoop_success probe 12 1 N (by omega) hN1 (by omega) hNT hall]
    simp only [if_pos]
    refine Prod.ext rfl (Prod.ext (by simp; omega) ?_)
    show (List.range' 1 (N - 1)).map healthDelay = (List.range' 1 (N - 1)).map healthDelay
    rfl
  · have hbound : ∀ fuel attempt, (retryLoop probe fuel attempt).2.1 ≤ fuel := by
      intro fuel
      induction fuel with
      | zero => intro attempt; exact le_rfl
      | succ f ih =>
          intro attempt
          unfold retryLoop
          by_cases h : probe attempt
          · rw [if_pos h]; simp
          · rw [if_neg h]
            by_cases hlt : attempt < 12
            · rw [if_pos hlt]
              have := ih (attempt + 1)
              simpa using Nat.add_le_add_right this 1
            · rw [if_neg hlt]; simp
    unfold ensureApiConnection
    by_cases h0 : probe 0
    · rw [if_pos h0]; simp
    · rw [if_neg h0]
      have := hbound 12 1
      by_cases hr : (retryLoop probe 12 1).1
      · rw [if_pos hr]
        show 1 + (retryLoop probe 12 1).2.1 ≤ 13
        omega
      · rw [if_neg hr]
        show 1 + (retryLoop probe 12 1).2.1 ≤ 13
        omega

/-- Witness for claim C3: with a probe that always fails, the Establisher
exits non-zero after 13 probes with the capped back-off delay sequence. -/
theorem C3_connection_establisher_witness :
    ((fun _ => false : Nat → Bool) 0 = false) ∧
    ensureApiConnection (fun _ => false) =
      (.exitFail, 13,
       [2000, 4000, 6000, 8000, 10000, 10000, 10000, 10000, 10000, 10000, 10000]) :=
  ⟨rfl,
   ((C3_connection_establisher (fun _ => false)).1 rfl (fun _ _ _ => rfl)).trans (by decide)⟩

/-! ## Claim C4 -/

/-- Claim C4: an unparseable frame delivered to an open channel fires the
error callback exactly once (the error count rises by exactly one), does not
terminate the channel (it stays open), changes no phase or progress state
(the UI state is untouched), and every later frame is still delivered (the
run continues from the same state but for the error count). -/
theorem C4_unparseable_frame (s : ChanState) (ys : List Frame) (hopen : s.isOpen = true) :
    chanStep s .malformed = { s with errorCalls := s.errorCalls + 1 } ∧
    (chanStep s .malformed).isOpen = true ∧
    (chanStep s .malformed).ui = s.ui ∧
    chanRun s (Frame.malformed :: ys) = chanRun { s with errorCalls := s.errorCalls + 1 } ys := by
  have h1 : chanStep s .malformed = { s with errorCalls := s.errorCalls + 1 } := by
    unfold chanStep
    rw [if_pos hopen]
  refine ⟨h1, by rw [h1]; exact hopen, by rw [h1], ?_⟩
  show List.foldl chanStep s (.malformed :: ys) = _
  rw [List.foldl_cons, h1]
  rfl

/-- Witness for claim C4: a malformed frame followed by a well-formed one, on
a freshly opened channel. -/
theorem C4_unparseable_frame_witness :
    (({} : ChanState)).isOpen = true ∧
    (chanStep {} .malformed = { ({} : ChanState) with errorCalls := 1 } ∧
     (chanStep ({} : ChanState) .malformed).isOpen = true ∧
     (chanStep ({} : ChanState) .malformed).ui = (({} : ChanState)).ui ∧
     chanRun {} (Frame.malformed :: [Frame.parseable exScrapeUpdate]) =
       chanRun { ({} : ChanState) with errorCalls := 1 } [Frame.parseable exScrapeUpdate]) :=
  ⟨rfl, C4_unparseable_frame {} [Frame.parseable exScrapeUpdate] rfl⟩

/-! ## Claim C7 -/

/-- The JSON encoding of a progress object determines its `pages_found`. -/
theorem progressJson_lookup_pf (p : Progress) :
    (progressJson p).lookup "pages_found" = p.pages_found := by
  rcases p with ⟨pf, ps, fc⟩
  cases pf <;> cases ps <;> cases fc <;> rfl

/-- The JSON encoding of a progress object determines its `pages_scraped`. -/
theorem progressJson_lookup_ps (p : Progress) :
    (progressJson p).lookup "pages_scraped" = p.pages_scraped := by
  rcases p with ⟨pf, ps, fc⟩
  cases pf <;> cases ps <;> cases fc <;> rfl

/-- The JSON encoding of a progress object determines its `files_created`. -/
theorem progressJson_lookup_fc (p : Progress) :
    (progressJson p).lookup "files_created" = p.files_created := by
  rcases p with ⟨pf, ps, fc⟩
  cases pf <;> cases ps <;> cases fc <;> rfl

/-- `JSON.stringify` equality of progress objects coincides with structural
equality. -/
theorem progressJson_inj {p q : Progress} (h : progressJson p = progressJson q) : p = q := by
  have h1 := congrArg (List.lookup "pages_found") h
  have h2 := congrArg (List.lookup "pages_scraped") h
  have h3 := congrArg (List.lookup "files_created") h
  rw [progressJson_lookup_pf, progressJson_lookup_pf] at h1
  rw [progressJson_lookup_ps, progressJson_lookup_ps] at h2
  rw [progressJson_lookup_fc, progressJson_lookup_fc] at h3
  rcases p with ⟨pf, ps, fc⟩
  rcases q with ⟨pf', ps', fc'⟩
  simp_all

/-- `JSON.stringify` equality of optional progress objects coincides with
structural equality. -/
theorem progressJsonOpt_inj {p q : Option Progress}
    (h : progressJsonOpt p = progressJsonOpt q) : p = q := by
  cases p <;> cases q <;> simp [progressJsonOpt] at h ⊢
  exact progressJson_inj h

/-- The polling loop's stringify-based re-render test agrees with the
deep-equality reference loop, snapshot by snapshot. -/
theorem waitForCompletionFallback_eq_deepEq :
    ∀ snaps last, waitForCompletionFallback snaps last = waitForCompletionDeepEq snaps last := by
  intro snaps
  induction snaps with
  | nil => intro last; rfl
  | cons s rest ih =>
      intro last
      have hch : ∀ ls lp,
          decide (¬ (s.status = ls ∧ progressJsonOpt s.progress = progressJsonOpt lp)) =
          decide (¬ (s.status = ls ∧ s.progress = lp)) := by
        intro ls lp
        rw [decide_eq_decide]
        constructor
        · intro hn hc
          exact hn ⟨hc.1, by rw [hc.2]⟩
        · intro hn hc
          exact hn ⟨hc.1, progressJsonOpt_inj hc.2⟩
      rcases last with _ | ⟨ls, lp⟩
      · simp only [waitForCompletionFallback, waitForCompletionDeepEq]
        rw [ih]
      · simp only [waitForCompletionFallback, waitForCompletionDeepEq, hch]
        rw [ih]

/-- Processing a run of non-terminal snapshots followed by a terminal one:
the loop visits exactly the prefix plus the terminal snapshot, sleeps the
fixed 2000 ms interval once per non-terminal snapshot, and stops with the
outcome matching the terminal status. -/
theorem pollRun_terminal (post : List JobStatusResponse) (stop : JobStatusResponse)
    (hterm : stop.status = JobStatus.completed ∨ stop.status = JobStatus.failed) :
    ∀ (pre : List JobStatusResponse) (last : Option (JobStatus × Option Progress)),
      (∀ x ∈ pre, x.status ≠ JobStatus.completed ∧ x.status ≠ JobStatus.failed) →
      (waitForCompletionFallback (pre ++ stop :: post) last).1.length = pre.length + 1 ∧
      (waitForCompletionFallback (pre ++ stop :: post) last).2.1 =
        List.replicate pre.length 2000 ∧
      (waitForCompletionFallback (pre ++ stop :: post) last).2.2 =
        (if stop.status = JobStatus.completed then PollOutcome.completed
         else PollOutcome.failedExit) := by
  intro pre
  induction pre with
  | nil =>
      intro last _
      rcases hterm with h | h
      · simp [waitForCompletionFallback, h]
      · simp [waitForCompletionFallback, h]
  | cons p pre' ih =>
      intro last hpre
      have hp := hpre p (List.mem_cons_self p pre')
      have hrest : ∀ x ∈ pre', x.status ≠ JobStatus.completed ∧ x.status ≠ JobStatus.failed :=
        fun x hx => hpre x (List.mem_cons_of_mem p hx)
      simp only [List.cons_append, waitForCompletionFallback, if_neg hp.1, if_neg hp.2]
      refine ⟨?_, ?_, ?_⟩
      · simp only [List.length_cons]
        exact congrArg Nat.succ ((ih _ hrest).1)
      · rw [List.length_cons, List.replicate_succ]
        exact congrArg (List.cons 2000) ((ih _ hrest).2.1)
      · exact (ih _ hrest).2.2

/-- Claim C7: the polling fallback queries job status until a terminal status
is observed, sleeping a fixed 2000 ms between non-terminal snapshots, and
re-renders exactly when the snapshot's `status` or `progress` differs from
the last rendered one under deep equality (the stringify-based test of the
code coincides with the deep-equality reference loop). -/
theorem C7_polling_loop :
    (∀ snaps last, waitForCompletionFallback snaps last = waitForCompletionDeepEq snaps last) ∧
    (∀ (pre post : List JobStatusResponse) (stop : JobStatusResponse),
       (∀ x ∈ pre, x.status ≠ JobStatus.completed ∧ x.status ≠ JobStatus.failed) →
       (stop.status = JobStatus.completed ∨ stop.status = JobStatus.failed) →
       (waitForCompletionFallback (pre ++ stop :: post) none).1.length = pre.length + 1 ∧
       (waitForCompletionFallback (pre ++ stop :: post) none).2.1 =
         List.replicate pre.length 2000 ∧
       (waitForCompletionFallback (pre ++ stop :: post) none).2.2 =
         (if stop.status = JobStatus.completed then PollOutcome.completed
          else PollOutcome.failedExit)) :=
  ⟨waitForCompletionFallback_eq_deepEq,
   fun pre post stop hpre hterm => pollRun_terminal post stop hterm pre none hpre⟩

/-- Witness for claim C7: two running snapshots (the second identical to the
first, hence not re-rendered) followed by a completed one. -/
theorem C7_polling_loop_witness :
    ((∀ x ∈ [({ status := JobStatus.running } : JobStatusResponse),
              ({ status := JobStatus.running } : JobStatusResponse)],
        x.status ≠ JobStatus.completed ∧ x.status ≠ JobStatus.failed) ∧
     ((({ status := JobStatus.completed } : JobStatusResponse)).status = JobStatus.completed ∨
       (({ status := JobStatus.completed } : JobStatusResponse)).status = JobStatus.failed)) ∧
    ((waitForCompletionFallback
        ([{ status := JobStatus.running }, { status := JobStatus.running }] ++
          ({ status := JobStatus.completed } : JobStatusResponse) :: []) none).1.length = 2 + 1 ∧
     (waitForCompletionFallback
        ([{ status := JobStatus.running }, { status := JobStatus.running }] ++
          ({ status := JobStatus.completed } : JobStatusResponse) :: []) none).2.1 =
       List.replicate 2 2000 ∧
     (waitForCompletionFallback
        ([{ status := JobStatus.running }, { status := JobStatus.running }] ++
          ({ status := JobStatus.completed } : JobStatusResponse) :: []) none).2.2 =
       (if (({ status := JobStatus.completed } : JobStatusResponse)).status =
           JobStatus.completed then PollOutcome.completed else PollOutcome.failedExit)) :=
  ⟨⟨by decide, Or.inl (by decide)⟩,
   C7_polling_loop.2 [{ status := JobStatus.running }, { status := JobStatus.running }] []
     { status := JobStatus.completed } (by decide) (Or.inl (by decide))⟩

/-! ## Lemmas about the download loop -/

theorem string_append_left_cancel {a b c : String} (h : a ++ b = a ++ c) : b = c := by
  have hd : a.data ++ b.data = a.data ++ c.data := congrArg String.data h
  have hbc := List.append_cancel_left hd
  cases b
  cases c
  exact congrArg String.mk hbc

/-- `path.join` with a fixed directory is injective on the file part. -/
theorem pathJoin_right_inj (dir : String) {a b : String}
    (h : pathJoin dir a = pathJoin dir b) : a = b := by
  unfold pathJoin at h
  by_cases hd : dir = ""
  · simpa [hd] using h
  · rw [if_neg hd, if_neg hd] at h
    by_cases ha : a = "" <;> by_cases hb : b = ""
    · rw [ha, hb]
    · rw [if_pos ha, if_neg hb] at h
      have hlen := congrArg String.length h
      rw [String.length_append, String.length_append] at hlen
      have h1 : ("/" : String).length = 1 := rfl
      rw [h1] at hlen
      omega
    · rw [if_neg ha, if_pos hb] at h
      have hlen := congrArg String.length h
      rw [String.length_append, String.length_append] at hlen
      have h1 : ("/" : String).length = 1 := rfl
      rw [h1] at hlen
      omega
    · rw [if_neg ha, if_neg hb] at h
      exact string_append_left_cancel h

/-- Pointwise description of the filesystem after the download loop. -/
theorem downloadLoop_fs (fetch : String → Option String) (dir : String) :
    ∀ (files : List String) (fs : Fs) (count : Nat) (q : String),
      (downloadLoop fetch dir files fs count).1 q =
        match lastWrite fetch dir files q with
        | some d => some d
        | none => fs q := by
  intro files
  induction files with
  | nil => intro fs count q; rfl
  | cons f rest ih =>
      intro fs count q
      rcases hf : fetch f with _ | d
      · simp only [downloadLoop, lastWrite, hf, ih]
        rcases hlw : lastWrite fetch dir rest q with _ | e <;> simp only [hlw]
        by_cases hq : q = pathJoin dir f <;> simp [hq]
      · simp only [downloadLoop, lastWrite, hf, ih]
        rcases hlw : lastWrite fetch dir rest q with _ | e <;> simp only [hlw]
        by_cases hq : q = pathJoin dir f <;> simp [fsWrite, hq]

/-- The download counter counts exactly the successfully fetched entries. -/
theorem downloadLoop_count (fetch : String → Option String) (dir : String) :
    ∀ (files : List String) (fs : Fs) (count : Nat),
      (downloadLoop fetch dir files fs count).2 =
        count + (files.countP fun f => (fetch f).isSome) := by
  intro files
  induction files with
  | nil => intro fs count; simp [downloadLoop]
  | cons f rest ih =>
      intro fs count
      rcases hf : fetch f with _ | d
      · simp only [downloadLoop, hf, ih, List.countP_cons]
        simp [hf]
      · simp only [downloadLoop, hf, ih, List.countP_cons]
        simp [hf]
        omega

/-- Unfolding of the download command once every precondition passes with
`--overwrite` given: it runs the loop, reports, and invokes the index
generator. -/
theorem downloadCommandAction_run (jobId outputDir : String) (st : JobStatusResponse)
    (files : List String) (confirm : Bool) (fetch : String → Option String) (fs0 : Fs)
    (hrs : st.result_summary ≠ none) (hne : files ≠ []) :
    downloadCommandAction jobId outputDir st files true confirm true fetch fs0 =
      ((downloadLoop fetch
          (pathJoin outputDir (sanitizeFilename ((st.request.map ScrapeRequest.name).getD jobId)))
          files fs0 0).1,
       (if (downloadLoop fetch
              (pathJoin outputDir (sanitizeFilename ((st.request.map ScrapeRequest.name).getD jobId)))
              files fs0 0).2 = files.length
        then DlOutcome.doneAll (downloadLoop fetch
              (pathJoin outputDir (sanitizeFilename ((st.request.map ScrapeRequest.name).getD jobId)))
              files fs0 0).2
        else DlOutcome.donePartial (downloadLoop fetch
              (pathJoin outputDir (sanitizeFilename ((st.request.map ScrapeRequest.name).getD jobId)))
              files fs0 0).2 files.length),
       true) := by
  unfold downloadCommandAction
  rw [if_neg hrs]
  rw [if_neg (by simpa using hne)]
  rw [if_neg (by simp)]
  rw [if_neg (by simp)]

/-- If every manifest entry mapping to `q` fetches the bytes `d`, the loop
leaves either nothing or `d` at `q`. -/
theorem lastWrite_none_or (fetch : String → Option String) (dir d : String) :
    ∀ (files : List String) (q : String),
      (∀ f' ∈ files, pathJoin dir f' = q → fetch f' = some d) →
      lastWrite fetch dir files q = none ∨ lastWrite fetch dir files q = some d := by
  intro files
  induction files with
  | nil => intro q _; exact Or.inl rfl
  | cons g rest ih =>
      intro q hall
      have hrest := ih q (fun f' hm he => hall f' (List.mem_cons_of_mem g hm) he)
      unfold lastWrite
      rcases hlw : lastWrite fetch dir rest q with _ | e
      · simp only [hlw]
        by_cases hq : q = pathJoin dir g
        · rw [if_pos hq, hall g (List.mem_cons_self g rest) hq.symm]
          exact Or.inr rfl
        · rw [if_neg hq]
          exact Or.inl rfl
      · simp only [hlw]
        rcases hrest with h | h
        · rw [hlw] at h; cases h
        · rw [hlw] at h; exact Or.inr h

/-- If some manifest entry maps to `q` and fetches successfully, the loop
writes something at `q`. -/
theorem lastWrite_ne_none (fetch : String → Option String) (dir : String) :
    ∀ (files : List String) (q f : String), f ∈ files → pathJoin dir f = q →
      (fetch f).isSome → lastWrite fetch dir files q ≠ none := by
  intro files
  induction files with
  | nil => intro q f hm; cases hm
  | cons g rest ih =>
      intro q f hm hq hsome
      unfold lastWrite
      rcases hlw : lastWrite fetch dir rest q with _ | e
      · simp only [hlw]
        rcases List.mem_cons.mp hm with h | h
        · subst h
          rw [if_pos hq.symm]
          rcases hf : fetch f with _ | d
          · rw [hf] at hsome; cases hsome
          · simp
        · exact absurd hlw (ih q f h hq hsome)
      · simp only [hlw]
        simp

/-- If every manifest entry mapping to `q` fetches `d` and some entry maps to
`q`, the loop leaves exactly `d` at `q`. -/
theorem lastWrite_eq_some (fetch : String → Option String) (dir d : String)
    (files : List String) (q : String)
    (hall : ∀ f' ∈ files, pathJoin dir f' = q → fetch f' = some d)
    (hex : ∃ f ∈ files, pathJoin dir f = q) :
    lastWrite fetch dir files q = some d := by
  obtain ⟨f, hm, hq⟩ := hex
  rcases lastWrite_none_or fetch dir d files q hall with h | h
  · have hsome : (fetch f).isSome := by rw [hall f hm hq]; rfl
    exact absurd h (lastWrite_ne_none fetch dir files q f hm hq hsome)
  · exact h

/-! ## Claim C5 -/

/-- Claim C5: with `--overwrite`, per-file fetch failures do not abort the
remaining entries — every successfully fetched entry ends up written at its
planned path; the report equals the full-success outcome exactly when all
entries fetched, and a single failing entry forces the distinct
`downloaded/total` partial outcome; the index generator is invoked in either
case. -/
theorem C5_partial_failure (jobId outputDir : String) (st : JobStatusResponse)
    (files : List String) (confirm : Bool) (fetch : String → Option String) (fs0 : Fs)
    (hrs : st.result_summary ≠ none) (hne : files ≠ []) :
    (∀ f ∈ files, ∀ d, fetch f = some d →
       (downloadCommandAction jobId outputDir st files true confirm true fetch fs0).1
         (pathJoin
           (pathJoin outputDir (sanitizeFilename ((st.request.map ScrapeRequest.name).getD jobId)))
           f) = some d) ∧
    ((downloadCommandAction jobId outputDir st files true confirm true fetch fs0).2.1 =
       if (files.countP fun f => (fetch f).isSome) = files.length
       then DlOutcome.doneAll files.length
       else DlOutcome.donePartial (files.countP fun f => (fetch f).isSome) files.length) ∧
    (∀ f ∈ files, fetch f = none →
       (downloadCommandAction jobId outputDir st files true confirm true fetch fs0).2.1 =
         DlOutcome.donePartial (files.countP fun f => (fetch f).isSome) files.length ∧
       (files.countP fun f => (fetch f).isSome) < files.length) ∧
    (downloadCommandAction jobId outputDir st files true confirm true fetch fs0).2.2 = true := by
  rw [downloadCommandAction_run jobId outputDir st files confirm fetch fs0 hrs hne]
  have hcount := downloadLoop_count fetch
    (pathJoin outputDir (sanitizeFilename ((st.request.map ScrapeRequest.name).getD jobId)))
    files fs0 0
  refine ⟨?_, ?_, ?_, rfl⟩
  · intro f hm d hfd
    rw [downloadLoop_fs]
    rw [lastWrite_eq_some fetch _ d files _ ?_ ⟨f, hm, rfl⟩]
    intro f' hm' he
    rw [pathJoin_right_inj _ he, hfd]
  · rw [hcount]
    simp only [Nat.zero_add]
    by_cases hc : (files.countP fun f => (fetch f).isSome) = files.length
    · rw [if_pos hc, if_pos hc, hc]
    · rw [if_neg hc, if_neg hc]
  · intro f hm hfnone
    have hle := List.countP_le_length (l := files) (p := fun f => (fetch f).isSome)
    have hne2 : (files.countP fun f => (fetch f).isSome) ≠ files.length := by
      intro heq
      have := List.countP_eq_length.mp heq f hm
      rw [hfnone] at this
      cases this
    have hlt : (files.countP fun f => (fetch f).isSome) < files.length :=
      lt_of_le_of_ne hle hne2
    refine ⟨?_, hlt⟩
    rw [hcount]
    simp only [Nat.zero_add]
    rw [if_neg hne2]

/-- Witness for claim C5: a manifest of 5 files where fetching the third
throws still writes the other four and reports the partial outcome 4/5, and
the index generator still runs. -/
theorem C5_partial_failure_witness :
    ((({ status := JobStatus.completed, result_summary := some {} } :
         JobStatusResponse)).result_summary ≠ none ∧
     (["f1", "f2", "f3", "f4", "f5"] : List String) ≠ [] ∧
     (fun f => if f = "f3" then none else some ("bytes-" ++ f)) "f3" = (none : Option String)) ∧
    ((downloadCommandAction "job1" "docs"
        { status := JobStatus.completed, result_summary := some {},
          request := some { name := "proj", url := "u" } }
        ["f1", "f2", "f3", "f4", "f5"] true false true
        (fun f => if f = "f3" then none else some ("bytes-" ++ f)) (fun _ => none)).2.1 =
       DlOutcome.donePartial
         ((["f1", "f2", "f3", "f4", "f5"] : List String).countP
           (fun f => ((fun f => if f = "f3" then none else some ("bytes-" ++ f)) f).isSome))
         (["f1", "f2", "f3", "f4", "f5"] : List String).length ∧
     (["f1", "f2", "f3", "f4", "f5"] : List String).countP
         (fun f => ((fun f => if f = "f3" then none else some ("bytes-" ++ f)) f).isSome) <
       (["f1", "f2", "f3", "f4", "f5"] : List String).length) :=
  ⟨⟨by decide, by decide, by decide⟩,
   (C5_partial_failure "job1" "docs"
      { status := JobStatus.completed, result_summary := some {},
        request := some { name := "proj", url := "u" } }
      ["f1", "f2", "f3", "f4", "f5"] false
      (fun f => if f = "f3" then none else some ("bytes-" ++ f)) (fun _ => none)
      (by decide) (by decide)).2.2.1 "f3" (by decide) (by decide)⟩

/-! ## Claim C6 -/

/-- Claim C6: without `--overwrite`, when at least one planned local path
already exists and the user declines the confirmation prompt, the whole
download is cancelled: the filesystem is returned exactly as it was (zero
files written, colliding or not), the outcome is the non-error `cancelled`
result, and the index generator is not invoked. -/
theorem C6_decline_overwrite (jobId outputDir : String) (st : JobStatusResponse)
    (files : List String) (fetch : String → Option String) (fs0 : Fs)
    (hrs : st.result_summary ≠ none)
    (hex : ∃ f ∈ files,
      (fs0 (pathJoin
        (pathJoin outputDir (sanitizeFilename ((st.request.map ScrapeRequest.name).getD jobId)))
        f)).isSome) :
    downloadCommandAction jobId outputDir st files false false true fetch fs0 =
      (fs0, DlOutcome.cancelled, false) := by
  obtain ⟨f, hfmem, hfex⟩ := hex
  have hne : ¬ files.isEmpty = true := by
    cases files
    · cases hfmem
    · simp
  have hmemf : f ∈ files.filter (fun g =>
      (fs0 (pathJoin
        (pathJoin outputDir (sanitizeFilename ((st.request.map ScrapeRequest.name).getD jobId)))
        g)).isSome) :=
    List.mem_filter.mpr ⟨hfmem, hfex⟩
  have hpos : 0 < (files.filter (fun g =>
      (fs0 (pathJoin
        (pathJoin outputDir (sanitizeFilename ((st.request.map ScrapeRequest.name).getD jobId)))
        g)).isSome)).length :=
    List.length_pos.mpr (fun hnil => by rw [hnil] at hmemf; cases hmemf)
  unfold downloadCommandAction
  rw [if_neg hrs, if_neg hne, if_neg (by simp)]
  rw [if_pos ⟨rfl, hpos, rfl⟩]

/-- Witness for claim C6: two of five planned files already exist and the
user declines — nothing is written and the command returns the cancelled
outcome. -/
theorem C6_decline_overwrite_witness :
    ((({ status := JobStatus.completed, result_summary := some {} } :
         JobStatusResponse)).result_summary ≠ none ∧
     (∃ f ∈ (["f1", "f2", "f3", "f4", "f5"] : List String),
       (((fun q => if q = "docs/proj/f2" ∨ q = "docs/proj/f4" then some "old" else none) : Fs)
         (pathJoin (pathJoin "docs" (sanitizeFilename
           ((Option.map ScrapeRequest.name
             (some ({ name := "proj", url := "u" } : ScrapeRequest))).getD "job1"))) f)).isSome)) ∧
    downloadCommandAction "job1" "docs"
        { status := JobStatus.completed, result_summary := some {},
          request := some { name := "proj", url := "u" } }
        ["f1", "f2", "f3", "f4", "f5"] false false true (fun f => some ("bytes-" ++ f))
        (fun q => if q = "docs/proj/f2" ∨ q = "docs/proj/f4" then some "old" else none) =
      ((fun q => if q = "docs/proj/f2" ∨ q = "docs/proj/f4" then some "old" else none),
       DlOutcome.cancelled, false) :=
  ⟨⟨by decide, ⟨"f2", by decide, by decide⟩⟩,
   C6_decline_overwrite "job1" "docs"
     { status := JobStatus.completed, result_summary := some {},
       request := some { name := "proj", url := "u" } }
     ["f1", "f2", "f3", "f4", "f5"] (fun f => some ("bytes-" ++ f))
     (fun q => if q = "docs/proj/f2" ∨ q = "docs/proj/f4" then some "old" else none)
     (by decide) ⟨"f2", by decide, by decide⟩⟩

/-! ## Claim C8 -/

/-- The terminal action depends only on the event's status. -/
theorem applyTerminal_snd (s : UIState) (st : Option JobStatus) :
    (applyTerminal s st).2 =
      if st = some JobStatus.completed then TermAction.download
      else if st = some JobStatus.failed then TermAction.exitFail
      else TermAction.keepWaiting := by
  unfold applyTerminal
  repeat' split
  all_goals rfl

/-- The update handler's action as a function of the event's type and
status. -/
theorem handleUpdate_action (s : UIState) (u : WebSocketJobUpdate) :
    (handleUpdate s u).2 =
      if u.type = UpdateType.statusUpdate then
        (if u.status = some JobStatus.completed then TermAction.download
         else if u.status = some JobStatus.failed then TermAction.exitFail
         else TermAction.keepWaiting)
      else TermAction.keepWaiting := by
  by_cases hty : u.type = UpdateType.statusUpdate
  · simp only [handleUpdate, if_pos hty]
    rw [applyTerminal_snd]
  · simp only [handleUpdate, if_neg hty]

/-- Claim C8 is false as stated: the download command's precondition check
tests `result_summary` presence, not `status === completed`.  A response with
status `running` but a result summary proceeds to fetch the manifest and
write files, while a response with status `completed` but no result summary
is refused with a non-zero exit. -/
theorem C8_counterexample :
    ((({ status := JobStatus.running, result_summary := some {},
         request := some { name := "proj", url := "u" } } : JobStatusResponse)).status ≠
       JobStatus.completed) ∧
    ((downloadCommandAction "job1" "out"
        { status := JobStatus.running, result_summary := some {},
          request := some { name := "proj", url := "u" } }
        ["f.md"] true false true (fun _ => some "data") (fun _ => none)).2.1 =
       DlOutcome.doneAll 1) ∧
    ((downloadCommandAction "job1" "out"
        { status := JobStatus.running, result_summary := some {},
          request := some { name := "proj", url := "u" } }
        ["f.md"] true false true (fun _ => some "data") (fun _ => none)).1
       "out/proj/f.md" = some "data") ∧
    ((({ status := JobStatus.completed } : JobStatusResponse)).status = JobStatus.completed) ∧
    ((downloadCommandAction "job1" "out" { status := JobStatus.completed } ["f.md"] true false
        true (fun _ => some "data") (fun _ => none)).2.1 = DlOutcome.exitFail) ∧
    ((downloadCommandAction "job1" "out" { status := JobStatus.completed } ["f.md"] true false
        true (fun _ => some "data") (fun _ => none)).1 "out/proj/f.md" = none) := by
  decide

/-- Claim C8 (amended): the download command's precondition gates on the
presence of `result_summary` (the completion marker), not on the status
field: without a result summary it refuses — non-zero exit, no file written,
no index generated — and with one it always proceeds past the precondition
check (the outcome is never the precondition failure).  In the WebSocket
flow, the orchestrator is handed control only on a `completed` status. -/
theorem C8_amended :
    (∀ (jobId outputDir : String) (st : JobStatusResponse) (files : List String)
       (overwrite confirm dirValid : Bool) (fetch : String → Option String) (fs0 : Fs),
       st.result_summary = none →
       downloadCommandAction jobId outputDir st files overwrite confirm dirValid fetch fs0 =
         (fs0, DlOutcome.exitFail, false)) ∧
    (∀ (jobId outputDir : String) (st : JobStatusResponse) (files : List String)
       (confirm : Bool) (fetch : String → Option String) (fs0 : Fs),
       st.result_summary ≠ none → files ≠ [] →
       (downloadCommandAction jobId outputDir st files true confirm true fetch fs0).2.1 ≠
         DlOutcome.exitFail) ∧
    (∀ (s : UIState) (u : WebSocketJobUpdate),
       (handleUpdate s u).2 = TermAction.download → u.status = some JobStatus.completed) := by
  refine ⟨?_, ?_, ?_⟩
  · intro jobId outputDir st files overwrite confirm dirValid fetch fs0 hnone
    unfold downloadCommandAction
    rw [if_pos hnone]
  · intro jobId outputDir st files confirm fetch fs0 hrs hne
    rw [downloadCommandAction_run jobId outputDir st files confirm fetch fs0 hrs hne]
    by_cases hc : (downloadLoop fetch
        (pathJoin outputDir (sanitizeFilename ((st.request.map ScrapeRequest.name).getD jobId)))
        files fs0 0).2 = files.length
    · rw [if_pos hc]
      simp
    · rw [if_neg hc]
      simp
  · intro s u h
    rw [handleUpdate_action] at h
    by_cases hty : u.type = UpdateType.statusUpdate
    · rw [if_pos hty] at h
      by_cases hc : u.status = some JobStatus.completed
      · exact hc
      · rw [if_neg hc] at h
        by_cases hf : u.status = some JobStatus.failed
        · rw [if_pos hf] at h; cases h
        · rw [if_neg hf] at h; cases h
    · rw [if_neg hty] at h; cases h

/-- Witness for the amended claim C8: a status response with no result
summary is refused outright. -/
theorem C8_amended_witness :
    ((({ status := JobStatus.completed } : JobStatusResponse)).result_summary = none) ∧
    downloadCommandAction "job1" "out" { status := JobStatus.completed } ["f.md"] true false
        true (fun _ => some "data") (fun _ => none) =
      ((fun _ => none : Fs), DlOutcome.exitFail, false) :=
  ⟨rfl,
   C8_amended.1 "job1" "out" { status := JobStatus.completed } ["f.md"] true false true
     (fun _ => some "data") (fun _ => none) rfl⟩

/-! ## Claim C10 -/

/-- Claim C10: with `--overwrite` force-enabled, running the download command
a second time over the state its first run produced changes nothing — the
same filesystem, outcome and index invocation result — and when every fetch
succeeds the first run reports full success (and, the remote being modelled
as a function, serves the same bytes both times). -/
theorem C10_download_idempotent (jobId outputDir : String) (st : JobStatusResponse)
    (files : List String) (confirm : Bool) (fetch : String → Option String) (fs0 : Fs)
    (hrs : st.result_summary ≠ none) (hne : files ≠ [])
    (hfull : ∀ f ∈ files, (fetch f).isSome) :
    downloadCommandAction jobId outputDir st files true confirm true fetch
        (downloadCommandAction jobId outputDir st files true confirm true fetch fs0).1 =
      downloadCommandAction jobId outputDir st files true confirm true fetch fs0 ∧
    (downloadCommandAction jobId outputDir st files true confirm true fetch fs0).2.1 =
      DlOutcome.doneAll files.length := by
  have hrun := downloadCommandAction_run jobId outputDir st files confirm fetch fs0 hrs hne
  have hrun2 := downloadCommandAction_run jobId outputDir st files confirm fetch
    (downloadLoop fetch
      (pathJoin outputDir (sanitizeFilename ((st.request.map ScrapeRequest.name).getD jobId)))
      files fs0 0).1 hrs hne
  have h1 : (downloadCommandAction jobId outputDir st files true confirm true fetch fs0).1 =
      (downloadLoop fetch
        (pathJoin outputDir (sanitizeFilename ((st.request.map ScrapeRequest.name).getD jobId)))
        files fs0 0).1 := by
    rw [hrun]
  have hfse : (downloadLoop fetch
      (pathJoin outputDir (sanitizeFilename ((st.request.map ScrapeRequest.name).getD jobId)))
      files
      (downloadLoop fetch
        (pathJoin outputDir (sanitizeFilename ((st.request.map ScrapeRequest.name).getD jobId)))
        files fs0 0).1 0).1 =
      (downloadLoop fetch
        (pathJoin outputDir (sanitizeFilename ((st.request.map ScrapeRequest.name).getD jobId)))
        files fs0 0).1 := by
    funext q
    rw [downloadLoop_fs, downloadLoop_fs]
    cases hlw : lastWrite fetch
      (pathJoin outputDir (sanitizeFilename ((st.request.map ScrapeRequest.name).getD jobId)))
      files q <;> simp [hlw]
  have hc2 : (downloadLoop fetch
      (pathJoin outputDir (sanitizeFilename ((st.request.map ScrapeRequest.name).getD jobId)))
      files
      (downloadLoop fetch
        (pathJoin outputDir (sanitizeFilename ((st.request.map ScrapeRequest.name).getD jobId)))
        files fs0 0).1 0).2 =
      (downloadLoop fetch
        (pathJoin outputDir (sanitizeFilename ((st.request.map ScrapeRequest.name).getD jobId)))
        files fs0 0).2 := by
    rw [downloadLoop_count, downloadLoop_count]
  constructor
  · rw [h1, hrun2, hrun, hfse, hc2]
  · rw [hrun]
    have hcp : (files.countP fun f => (fetch f).isSome) = files.length :=
      List.countP_eq_length.mpr (fun f hf => hfull f hf)
    have hcnt := downloadLoop_count fetch
      (pathJoin outputDir (sanitizeFilename ((st.request.map ScrapeRequest.name).getD jobId)))
      files fs0 0
    show (if _ = files.length then _ else _) = DlOutcome.doneAll files.length
    rw [hcnt, Nat.zero_add, hcp, if_pos rfl]

/-- Witness for claim C10: a fully downloadable two-file manifest, downloaded
twice with `--overwrite`, leaves the file set byte-identical. -/
theorem C10_download_idempotent_witness :
    ((({ status := JobStatus.completed, result_summary := some {},
         request := some { name := "proj", url := "u" } } :
         JobStatusResponse)).result_summary ≠ none ∧
     (["a.md", "b/c.md"] : List String) ≠ [] ∧
     (∀ f ∈ (["a.md", "b/c.md"] : List String),
       ((fun f => some ("data-" ++ f)) f : Option String).isSome)) ∧
    (downloadCommandAction "job1" "out"
        { status := JobStatus.completed, result_summary := some {},
          request := some { name := "proj", url := "u" } }
        ["a.md", "b/c.md"] true false true (fun f => some ("data-" ++ f))
        (downloadCommandAction "job1" "out"
          { status := JobStatus.completed, result_summary := some {},
            request := some { name := "proj", url := "u" } }
          ["a.md", "b/c.md"] true false true (fun f => some ("data-" ++ f))
          (fun _ => none)).1 =
      downloadCommandAction "job1" "out"
        { status := JobStatus.completed, result_summary := some {},
          request := some { name := "proj", url := "u" } }
        ["a.md", "b/c.md"] true false true (fun f => some ("data-" ++ f)) (fun _ => none) ∧
     (downloadCommandAction "job1" "out"
        { status := JobStatus.completed, result_summary := some {},
          request := some { name := "proj", url := "u" } }
        ["a.md", "b/c.md"] true false true (fun f => some ("data-" ++ f))
        (fun _ => none)).2.1 = DlOutcome.doneAll (["a.md", "b/c.md"] : List String).length) :=
  ⟨⟨by decide, by decide, by decide⟩,
   C10_download_idempotent "job1" "out"
     { status := JobStatus.completed, result_summary := some {},
       request := some { name := "proj", url := "u" } }
     ["a.md", "b/c.md"] false (fun f => some ("data-" ++ f)) (fun _ => none)
     (by decide) (by decide) (by decide)⟩

/-! ## Claim C9 -/

/-- Code-point order is total. -/
theorem charListLe_total : ∀ xs ys, charListLe xs ys = true ∨ charListLe ys xs = true := by
  intro xs
  induction xs with
  | nil => intro ys; exact Or.inl rfl
  | cons x xs ih =>
      intro ys
      cases ys with
      | nil => exact Or.inr rfl
      | cons y ys =>
          simp only [charListLe]
          by_cases hxy : x.toNat < y.toNat
          · exact Or.inl (by rw [if_pos hxy])
          · by_cases hyx : y.toNat < x.toNat
            · exact Or.inr (by rw [if_pos hyx])
            · rcases ih ys with h | h
              · exact Or.inl (by rw [if_neg hxy, if_neg hyx]; exact h)
              · exact Or.inr (by rw [if_neg hyx, if_neg hxy]; exact h)

/-- Code-point order is transitive. -/
theorem charListLe_trans :
    ∀ xs ys zs, charListLe xs ys = true → charListLe ys zs = true →
      charListLe xs zs = true := by
  intro xs
  induction xs with
  | nil => intro ys zs _ _; rfl
  | cons x xs ih =>
      intro ys zs h1 h2
      cases ys with
      | nil => simp [charListLe] at h1
      | cons y ys =>
          cases zs with
          | nil => simp [charListLe] at h2
          | cons z zs =>
              simp only [charListLe] at h1 h2 ⊢
              have H1 : x.toNat < y.toNat ∨ (x.toNat = y.toNat ∧ charListLe xs ys = true) := by
                by_cases hxy : x.toNat < y.toNat
                · exact Or.inl hxy
                · rw [if_neg hxy] at h1
                  by_cases hyx : y.toNat < x.toNat
                  · rw [if_pos hyx] at h1; cases h1
                  · rw [if_neg hyx] at h1
                    exact Or.inr ⟨by omega, h1⟩
              have H2 : y.toNat < z.toNat ∨ (y.toNat = z.toNat ∧ charListLe ys zs = true) := by
                by_cases hyz : y.toNat < z.toNat
                · exact Or.inl hyz
                · rw [if_neg hyz] at h2
                  by_cases hzy : z.toNat < y.toNat
                  · rw [if_pos hzy] at h2; cases h2
                  · rw [if_neg hzy] at h2
                    exact Or.inr ⟨by omega, h2⟩
              rcases H1 with h | ⟨hxyeq, hrec1⟩ <;> rcases H2 with h' | ⟨hyzeq, hrec2⟩
              · rw [if_pos (by omega : x.toNat < z.toNat)]
              · rw [if_pos (by omega : x.toNat < z.toNat)]
              · rw [if_pos (by omega : x.toNat < z.toNat)]
              · rw [if_neg (by omega : ¬ x.toNat < z.toNat),
                   if_neg (by omega : ¬ z.toNat < x.toNat)]
                exact ih ys zs hrec1 hrec2

/-- How `groupInsert` changes group lookups: the inserted key's group gains
the base name at its end, every other group is untouched. -/
theorem lookupGroup_groupInsert :
    ∀ (st : List (String × List String)) (dir base k : String),
      lookupGroup (groupInsert st dir base) k =
        if dir = k then some ((lookupGroup st k).getD [] ++ [base])
        else lookupGroup st k := by
  intro st
  induction st with
  | nil =>
      intro dir base k
      simp only [groupInsert, lookupGroup]
      by_cases h : dir = k
      · rw [if_pos h, if_pos h]
        rfl
      · rw [if_neg h, if_neg h]
  | cons p rest ih =>
      rcases p with ⟨d, fs⟩
      intro dir base k
      simp only [groupInsert]
      by_cases hdd : d = dir
      · rw [if_pos hdd]
        simp only [lookupGroup]
        by_cases hdk : d = k
        · rw [if_pos hdk, if_pos (hdd.symm.trans hdk), if_pos hdk]
          rfl
        · have hdirk : ¬ dir = k := fun h => hdk (hdd.trans h)
          rw [if_neg hdk, if_neg hdirk, if_neg hdk]
      · rw [if_neg hdd]
        simp only [lookupGroup]
        by_cases hdk : d = k
        · have hdirk : ¬ dir = k := fun h => hdd (hdk.trans h.symm)
          rw [if_pos hdk, if_neg hdirk, if_pos hdk]
        · rw [if_neg hdk, ih, if_neg hdk]

/-- Folding the grouping step over an enumeration appends, to each key's
group, the base names of that key's files in enumeration order. -/
theorem structureOf_fold_lookup :
    ∀ (files : List String) (st : List (String × List String)) (k : String),
      lookupGroup (files.foldl (fun acc f => groupInsert acc (dirname f) (basenameMd f)) st) k =
        combineGroup (lookupGroup st k)
          ((files.filter fun f => decide (dirname f = k)).map basenameMd) := by
  intro files
  induction files with
  | nil =>
      intro st k
      simp only [List.foldl_nil, List.filter_nil, List.map_nil]
      cases lookupGroup st k <;> rfl
  | cons f rest ih =>
      intro st k
      simp only [List.foldl_cons, List.filter_cons]
      rw [ih, lookupGroup_groupInsert]
      by_cases hk : dirname f = k
      · rw [if_pos hk, if_pos (by simpa using hk)]
        simp only [List.map_cons]
        cases lookupGroup st k <;>
          cases hL : (rest.filter fun f => decide (dirname f = k)).map basenameMd <;>
            simp [combineGroup]
      · rw [if_neg hk, if_neg (by simpa using hk)]

/-- The group a directory key carries in the generated structure: exactly its
own files' base names, in enumeration order. -/
theorem structureOf_lookup (mdFiles : List String) (k : String) :
    lookupGroup (structureOf mdFiles) k = groupContent mdFiles k := by
  unfold structureOf groupContent
  rw [structureOf_fold_lookup]
  rfl

/-- Claim C9 is false as stated: the generator does not sort each group's
link list.  With a destination directory whose enumeration returns `c.md`
before `b.md`, the root group lists `c` before `b` — not alphabetically
sorted (`b` strictly precedes `c`) — and the emitted index lists the links
in that unsorted order. -/
theorem C9_counterexample :
    getAllMdFiles [FsEntry.file "c.md" "x", FsEntry.file "b.md" "y"] "" = ["c.md", "b.md"] ∧
    sortedStructure ["c.md", "b.md"] = [(".", ["c", "b"])] ∧
    readmeContent ["c.md", "b.md"] =
      "# Documentation Index\n\n- [c](./c.md)\n- [b](./b.md)" ∧
    localeLe "b" "c" = true ∧ localeLe "c" "b" = false := by
  decide

/-- Claim C9 (amended): the Index Generator is a no-op when the index file
already exists; otherwise it enumerates md files recursively (excluding any
file named `README.md`), groups them by directory with each group's link list
in enumeration order (not sorted — see the counterexample), orders the groups
by the string order on directory names (the root group keyed `.`), and emits
one `### <dir>` heading per non-root group; on the spec's own example
`a.md`, `sub/b.md`, `sub/c.md` (enumerated in that order) the index lists
`a` at the root and a `### sub` section with `b` then `c`; a traversal
failure is caught and reported as a warning, never as an error. -/
theorem C9_index_generator_amended :
    (∀ root : List FsEntry, readmeExists root = true → generateReadmeIndex root = root) ∧
    (∀ mdFiles : List String,
       List.Sorted (fun a b => localeLe a.1 b.1 = true) (sortedStructure mdFiles)) ∧
    (∀ mdFiles : List String, (sortedStructure mdFiles).Perm (structureOf mdFiles)) ∧
    (∀ (mdFiles : List String) (k : String),
       lookupGroup (structureOf mdFiles) k = groupContent mdFiles k) ∧
    (getAllMdFiles [FsEntry.file "a.md" "",
        FsEntry.dir "sub" [FsEntry.file "b.md" "", FsEntry.file "c.md" ""]] "" =
      ["a.md", "sub/b.md", "sub/c.md"] ∧
     readmeContent ["a.md", "sub/b.md", "sub/c.md"] =
      "# Documentation Index\n\n- [a](./a.md)\n\n### sub\n\n- [b](./sub/b.md)\n- [c](./sub/c.md)") ∧
    (∀ (b : Bool) (e : String),
       generateReadmeIndexRun b (Except.error e) =
         (if b then GenResult.skipped else GenResult.warned)) := by
  refine ⟨?_, ?_, ?_, ?_, ⟨by decide, by decide⟩, ?_⟩
  · intro root h
    unfold generateReadmeIndex
    rw [if_pos h]
  · intro mdFiles
    haveI : IsTotal (String × List String) (fun a b => localeLe a.1 b.1 = true) :=
      ⟨fun a b => charListLe_total a.1.data b.1.data⟩
    haveI : IsTrans (String × List String) (fun a b => localeLe a.1 b.1 = true) :=
      ⟨fun a b c h1 h2 => charListLe_trans a.1.data b.1.data c.1.data h1 h2⟩
    exact List.sorted_insertionSort _ _
  · intro mdFiles
    exact List.perm_insertionSort _ _
  · exact structureOf_lookup
  · intro b e
    cases b <;> rfl

/-- Witness for the amended claim C9: regenerating over a destination that
already holds a `README.md` is a no-op. -/
theorem C9_index_generator_amended_witness :
    readmeExists [FsEntry.file "README.md" "existing", FsEntry.file "a.md" "x"] = true ∧
    generateReadmeIndex [FsEntry.file "README.md" "existing", FsEntry.file "a.md" "x"] =
      [FsEntry.file "README.md" "existing", FsEntry.file "a.md" "x"] :=
  ⟨rfl,
   C9_index_generator_amended.1
     [FsEntry.file "README.md" "existing", FsEntry.file "a.md" "x"] rfl⟩
